import Mathlib

/-!
Verification development for the integration record store
(`src/unnamed/part_000`, package `integration`) and the worker key
provisioning handler (`src/engine/worker/internal/handler_key.go`).

External collaborators (the gorp SQL executor, the `gorpmapping`
signing/decryption layer, the `LoadModel` resolver and the worker runtime
capability) are modelled as explicit environments; each store operation
returns, alongside its result, the trace of collaborator calls it made, so
that properties about which calls happen (decryption options, filesystem
interaction) are statable.
-/

namespace Cds

/-- Shape metadata of an integration type. Modelled from the spec: the model
"describes which named fields are sensitive"; the concrete Go struct
`sdk.IntegrationModel` is not part of the observed fragment. -/
structure IntegrationModel where
  id : Int
  sensitiveFields : List String
deriving DecidableEq

/-- An integration record, the union of the fields of `sdk.ProjectIntegration`
and the signed wrapper `dbProjectIntegration` that the observed fragment uses
(`ID`, `ProjectID`, `Name`, `IntegrationModelID`, `Config`, `Model`,
`Signature`). -/
structure ProjectIntegration where
  id : Int
  projectID : Int
  name : String
  integrationModelID : Int
  config : List (String × String)
  model : IntegrationModel
  signature : String
deriving DecidableEq

/-- The Go zero value of `sdk.IntegrationModel`. -/
def IntegrationModel.zero : IntegrationModel := ⟨0, []⟩

/-- The Go zero value of `sdk.ProjectIntegration`, the value a freshly
allocated slice slot holds. -/
def ProjectIntegration.zero : ProjectIntegration :=
  ⟨0, 0, "", 0, [], IntegrationModel.zero, ""⟩

/-- The value a redacted sensitive field is replaced with. -/
def passwordPlaceholder : String := "**********"

/-- Modelled from the spec: `sdk.ProjectIntegration.Blur` is not part of the
observed fragment; per the spec, redaction irreversibly blanks "every field
the model marks sensitive" in the in-memory record. -/
def ProjectIntegration.blur (p : ProjectIntegration) : ProjectIntegration :=
  { p with config := p.config.map fun kv =>
      if kv.1 ∈ p.model.sensitiveFields then (kv.1, passwordPlaceholder) else kv }

/-- Errors observable from the record store. `notFound` embeds
`sdk.ErrNotFound`; the other constructors stand for opaque errors
propagated from the storage, signature-verification and model-resolution
collaborators. -/
inductive StoreError where
  | notFound
  | storageFailure (msg : String)
  | verificationFailure (msg : String)
  | modelLoadFailure (msg : String)
deriving DecidableEq

/-- A collaborator call made by the record-store pipeline. `fetch b` is a
`gorpmapping.Get`/`GetAll` call where `b` says whether the `WithDecryption`
option was passed. -/
inductive StoreEvent where
  | fetch (withDecryption : Bool)
  | checkSignature (recordID : Int) (signature : String)
  | loadModel (modelID : Int) (clearPassword : Bool)
deriving DecidableEq

/-- Collaborators of the single-record `load`: the outcome of the
`gorpmapping.Get` row fetch, of `gorpmapping.CheckSignature`, and of
`LoadModel`. -/
structure LoadEnv where
  getRow : Except StoreError (Option ProjectIntegration)
  checkSignature : ProjectIntegration → String → Except StoreError Bool
  loadModel : Int → Bool → Except StoreError IntegrationModel

/-- The per-record tail of the pipeline shared by `load` and `loadAll`: attach
the resolved model, then blur unless clear-text access was requested. -/
def loadedEntry (clearPassword : Bool) (imodel : IntegrationModel)
    (p : ProjectIntegration) : ProjectIntegration :=
  let p2 := { p with model := imodel }
  if !clearPassword then p2.blur else p2

/-- The part of `load` after the row fetch: signature check (invalid result
becomes `ErrNotFound`), model resolution, optional blur. -/
def loadAfterFetch (env : LoadEnv) (clearPassword : Bool) :
    Option ProjectIntegration → List StoreEvent × Except StoreError ProjectIntegration
  | none => ([], .error .notFound)
  | some pp =>
    match env.checkSignature pp pp.signature with
    | .error e => ([.checkSignature pp.id pp.signature], .error e)
    | .ok isValid =>
      if !isValid then
        ([.checkSignature pp.id pp.signature], .error .notFound)
      else
        match env.loadModel pp.integrationModelID clearPassword with
        | .error e =>
          ([.checkSignature pp.id pp.signature,
            .loadModel pp.integrationModelID clearPassword], .error e)
        | .ok imodel =>
          ([.checkSignature pp.id pp.signature,
            .loadModel pp.integrationModelID clearPassword],
           .ok (loadedEntry clearPassword imodel pp))

/-- Embedding of `load` (src/unnamed/part_000 lines 22-50): fetch one row,
always passing the `WithDecryption` option; zero rows or an invalid signature
yield `ErrNotFound`; collaborator errors propagate; the model is resolved with
the caller's clear-text flag; the record is blurred unless clear-text access
was requested. -/
def load (env : LoadEnv) (clearPassword : Bool) :
    List StoreEvent × Except StoreError ProjectIntegration :=
  match env.getRow with
  | .error e => ([.fetch true], .error e)
  | .ok row =>
    (.fetch true :: (loadAfterFetch env clearPassword row).1,
     (loadAfterFetch env clearPassword row).2)

/-- Collaborators of the multi-record `loadAll`. -/
structure LoadAllEnv where
  getRows : Except StoreError (List ProjectIntegration)
  checkSignature : ProjectIntegration → String → Except StoreError Bool
  loadModel : Int → Bool → Except StoreError IntegrationModel

/-- The row loop of `loadAll` (src/unnamed/part_000 lines 77-100). The Go code
pre-allocates `make([]sdk.ProjectIntegration, len(pp))` and `continue`s past a
row whose signature is invalid, so that row's slot keeps the zero value; a
collaborator error aborts the whole call. -/
def loadAllRows (env : LoadAllEnv) (clearPassword : Bool) :
    List ProjectIntegration → List StoreEvent × Except StoreError (List ProjectIntegration)
  | [] => ([], .ok [])
  | p :: rest =>
    match env.checkSignature p p.signature with
    | .error e => ([.checkSignature p.id p.signature], .error e)
    | .ok isValid =>
      if !isValid then
        (.checkSignature p.id p.signature :: (loadAllRows env clearPassword rest).1,
         (loadAllRows env clearPassword rest).2.map fun l => ProjectIntegration.zero :: l)
      else
        match env.loadModel p.integrationModelID clearPassword with
        | .error e =>
          ([.checkSignature p.id p.signature,
            .loadModel p.integrationModelID clearPassword], .error e)
        | .ok imodel =>
          (.checkSignature p.id p.signature ::
             .loadModel p.integrationModelID clearPassword ::
               (loadAllRows env clearPassword rest).1,
           (loadAllRows env clearPassword rest).2.map fun l =>
             loadedEntry clearPassword imodel p :: l)

/-- Embedding of `loadAll` (src/unnamed/part_000 lines 71-100): fetch all rows,
always passing the `WithDecryption` option, then run the per-row loop. -/
def loadAll (env : LoadAllEnv) (clearPassword : Bool) :
    List StoreEvent × Except StoreError (List ProjectIntegration) :=
  match env.getRows with
  | .error e => ([.fetch true], .error e)
  | .ok pp =>
    (.fetch true :: (loadAllRows env clearPassword pp).1,
     (loadAllRows env clearPassword pp).2)

/-- Modelled from the spec: the storage executor's semantics for
`AddOnWorkflow`'s query `INSERT INTO workflow_project_integration
(workflow_id, project_integration_id) VALUES ($1, $2) ON CONFLICT DO NOTHING`
over the pure association table — the pair is inserted only when absent and a
conflict is not an error. The executor itself is an external collaborator. -/
def execInsertWorkflowIntegration (table : List (Int × Int))
    (workflowID projectIntegrationID : Int) : List (Int × Int) :=
  if (workflowID, projectIntegrationID) ∈ table then table
  else table ++ [(workflowID, projectIntegrationID)]

/-- Embedding of `AddOnWorkflow` (src/unnamed/part_000 lines 138-145): run the
insert-if-absent query and report success. -/
def AddOnWorkflow (table : List (Int × Int)) (workflowID projectIntegrationID : Int) :
    Except StoreError (List (Int × Int)) :=
  .ok (execInsertWorkflowIntegration table workflowID projectIntegrationID)

/-! ### Key provisioning handler (src/engine/worker/internal/handler_key.go) -/

/-- A job secret, the fields of `sdk.Variable` the handler uses. -/
structure Variable where
  name : String
  value : String
deriving DecidableEq

/-- The fields of `workerruntime.KeyResponse` the handler uses: `PKey`, the
public-side path echoed back on success. -/
structure KeyResponse where
  pkey : String
deriving DecidableEq

/-- A Go `error` value as the handler discriminates it: either a structured
`sdk.Error` carrying an HTTP status, or a plain error (such as one built with
`fmt.Errorf`) without one. -/
inductive GoError where
  | sdkError (status : Nat) (message : String)
  | plain (message : String)
deriving DecidableEq

/-- A filesystem-touching call made to the worker runtime capability. -/
inductive KeyEvent where
  | installKey (key : Variable)
  | installKeyTo (key : Variable) (path : String)
deriving DecidableEq

/-- The worker runtime capability: default install, and install to an explicit
path. -/
structure RuntimeEnv where
  installKey : Variable → Except GoError KeyResponse
  installKeyTo : Variable → String → Except GoError KeyResponse

/-- Modelled from the spec: `sdk.PathIsAbs` is not part of the observed
fragment; the spec requires the supplied destination to be "an absolute
path", i.e. one rooted at the filesystem separator: its first character is
the separator `/`. -/
def PathIsAbs (s : String) : Bool :=
  match s.data with
  | [] => false
  | c :: _ => c == '/'

/-- Embedding of `keyInstall` (handler_key.go lines 91-104): an empty filename
means default install; a non-empty relative filename is rejected with the
plain error `unsupported relative path` before any capability call; an
absolute filename is passed to `InstallKeyTo` unmodified. The first component
is the trace of capability calls. -/
def keyInstall (rt : RuntimeEnv) (filename : String) (key : Variable) :
    List KeyEvent × Except GoError KeyResponse :=
  if filename == "" then
    ([.installKey key], rt.installKey key)
  else if !PathIsAbs filename then
    ([], .error (.plain "unsupported relative path"))
  else
    ([.installKeyTo key filename], rt.installKeyTo key filename)

/-- `http.StatusBadRequest`. -/
def StatusBadRequest : Nat := 400

/-- `http.StatusNotFound`. -/
def StatusNotFound : Nat := 404

/-- Modelled from the spec: the status of `sdk.ErrWrongRequest` (malformed
request body), a 400 per the spec's status-code table. -/
def ErrWrongRequestStatus : Nat := 400

/-- Modelled from the spec: the status of `sdk.ErrUnknownError`, the "generic
error status for capability-level failures" used for an error without a
structured status; in the upstream SDK it is HTTP 500, distinct from the
client-error statuses. -/
def ErrUnknownErrorStatus : Nat := 500

/-- The body of an HTTP response written by the handler. -/
inductive HttpBody where
  | errorMessage (msg : String)
  | keyResponse (r : KeyResponse)
deriving DecidableEq

/-- An HTTP response written by the handler: status code and JSON body. -/
structure HttpResponse where
  status : Nat
  body : HttpBody
deriving DecidableEq

/-- Go map indexing `mapBody["file"]`: the zero value `""` when the entry is
absent. -/
def mapGet (m : List (String × String)) (k : String) : String :=
  match m.find? fun kv => kv.1 == k with
  | some kv => kv.2
  | none => ""

/-- The secret-scan loop of `keyInstallHandler`: the first secret whose name
is `"cds.key." + keyName + ".priv"`. -/
def findKey (secrets : List Variable) (keyName : String) : Option Variable :=
  secrets.find? fun k => k.name == "cds.key." ++ keyName ++ ".priv"

/-- Handler state: the runtime capability and the current job's secret set
(`wk.currentJob.secrets`), `none` when no secrets were loaded. -/
structure HandlerEnv where
  runtime : RuntimeEnv
  secrets : Option (List Variable)

/-- Embedding of `keyInstallHandler` (handler_key.go lines 17-89). `parsedBody`
is the outcome of reading and unmarshalling the request body (an external
collaborator): an error message for a malformed body, otherwise the decoded
string map (the empty map for an empty body). The first component is the trace
of capability calls. -/
def keyInstallHandler (env : HandlerEnv) (keyName : String)
    (parsedBody : Except String (List (String × String))) :
    List KeyEvent × HttpResponse :=
  match parsedBody with
  | .error msg => ([], ⟨ErrWrongRequestStatus, .errorMessage msg⟩)
  | .ok mapBody =>
    match env.secrets with
    | none => ([], ⟨StatusBadRequest, .errorMessage "Cannot find any keys for your job"⟩)
    | some secrets =>
      match findKey secrets keyName with
      | none => ([], ⟨StatusNotFound, .errorMessage ("Key " ++ keyName ++ " not found")⟩)
      | some key =>
        let filename := mapGet mapBody "file"
        let (events, res) := keyInstall env.runtime filename key
        match res with
        | .error (.sdkError st msg) => (events, ⟨st, .errorMessage msg⟩)
        | .error (.plain msg) => (events, ⟨ErrUnknownErrorStatus, .errorMessage msg⟩)
        | .ok response => (events, ⟨200, .keyResponse response⟩)

/-! ### Concrete fixtures used by witnesses and counterexamples -/

/-- A model whose only sensitive field is named `token`. -/
def modelTen : IntegrationModel := ⟨10, ["token"]⟩

/-- A stored row with a valid signature. -/
def rowGood : ProjectIntegration :=
  { id := 1, projectID := 7, name := "alpha", integrationModelID := 10,
    config := [("token", "secret-token"), ("url", "https://example")],
    model := IntegrationModel.zero, signature := "good" }

/-- A stored row whose signature will fail verification. -/
def rowBad : ProjectIntegration :=
  { id := 2, projectID := 7, name := "beta", integrationModelID := 10,
    config := [("token", "other-secret")],
    model := IntegrationModel.zero, signature := "bad" }

/-- What `rowGood` becomes after a clear-text-off load: model attached,
sensitive field blurred. -/
def rowGoodLoaded : ProjectIntegration :=
  { id := 1, projectID := 7, name := "alpha", integrationModelID := 10,
    config := [("token", passwordPlaceholder), ("url", "https://example")],
    model := modelTen, signature := "good" }

/-- Collaborators that verify a signature exactly when it is the string
`good`, and resolve only model 10. -/
def envLoadOk : LoadEnv :=
  { getRow := .ok (some rowGood)
  , checkSignature := fun _ s => .ok (s == "good")
  , loadModel := fun i _ => if i == 10 then .ok modelTen else .error (.modelLoadFailure "no model") }

/-- A single-record fetch that returns zero rows. -/
def envLoadEmpty : LoadEnv :=
  { getRow := .ok none
  , checkSignature := fun _ s => .ok (s == "good")
  , loadModel := fun i _ => if i == 10 then .ok modelTen else .error (.modelLoadFailure "no model") }

/-- A single-record fetch that returns a tampered row. -/
def envLoadTampered : LoadEnv :=
  { getRow := .ok (some rowBad)
  , checkSignature := fun _ s => .ok (s == "good")
  , loadModel := fun i _ => if i == 10 then .ok modelTen else .error (.modelLoadFailure "no model") }

/-- A single-record load whose model resolution fails. -/
def envLoadModelFail : LoadEnv :=
  { getRow := .ok (some rowGood)
  , checkSignature := fun _ s => .ok (s == "good")
  , loadModel := fun _ _ => .error (.modelLoadFailure "model missing") }

/-- A batch of two fetched rows of which the first is tampered. -/
def envBatchOneBad : LoadAllEnv :=
  { getRows := .ok [rowBad, rowGood]
  , checkSignature := fun _ s => .ok (s == "good")
  , loadModel := fun i _ => if i == 10 then .ok modelTen else .error (.modelLoadFailure "no model") }

/-- A batch of one valid row whose model resolution fails. -/
def envBatchModelFail : LoadAllEnv :=
  { getRows := .ok [rowGood]
  , checkSignature := fun _ s => .ok (s == "good")
  , loadModel := fun _ _ => .error (.modelLoadFailure "model missing") }

/-- A private key secret named for the short key name `mykey`. -/
def sampleKey : Variable := ⟨"cds.key.mykey.priv", "PRIVATE-KEY-MATERIAL"⟩

/-- A runtime capability that reports where it installed. -/
def rtEnv : RuntimeEnv :=
  { installKey := fun k => .ok ⟨"default-dir/" ++ k.name ++ ".pub"⟩
  , installKeyTo := fun _ p => .ok ⟨p ++ ".pub"⟩ }

/-- A worker whose job has no loaded secret set. -/
def envNoSecrets : HandlerEnv := ⟨rtEnv, none⟩

/-- A worker whose job holds exactly the `mykey` private key. -/
def envWithKey : HandlerEnv := ⟨rtEnv, some [sampleKey]⟩

/-! ### Claims about the record store -/

/-- Claim C2: for the single-record `load`, the zero-rows case and the
found-but-invalid-signature case surface the same external error `notFound`;
a tampered record is never reported as a distinct corrupted error, so the
caller cannot distinguish tampered from missing. -/
theorem load_conflates_missing_and_tampered (env : LoadEnv) (c : Bool) :
    (env.getRow = .ok none → (load env c).2 = .error .notFound) ∧
    (∀ p, env.getRow = .ok (some p) →
      env.checkSignature p p.signature = .ok false →
      (load env c).2 = .error .notFound) := by
  constructor
  · intro h
    simp [load, h, loadAfterFetch]
  · intro p h1 h2
    simp [load, h1, loadAfterFetch, h2]

/-- Witness for C2: a concrete empty fetch and a concrete tampered row both
come back as `notFound`. -/
theorem load_conflates_missing_and_tampered_witness :
    (load envLoadEmpty false).2 = .error .notFound ∧
    (load envLoadTampered false).2 = .error .notFound :=
  ⟨(load_conflates_missing_and_tampered envLoadEmpty false).1 rfl,
   (load_conflates_missing_and_tampered envLoadTampered false).2 rowBad rfl rfl⟩

/-- Claim C3 counterexample: at a concrete single load and a concrete batch
load with clearPassword = false, the row fetch still carries the decryption
option — decryption of sensitive fields is requested, not skipped. -/
theorem load_counterexample_decryption_not_skipped :
    (load envLoadOk false).1.head? = some (StoreEvent.fetch true) ∧
    (loadAll envBatchOneBad false).1.head? = some (StoreEvent.fetch true) :=
  ⟨rfl, rfl⟩

/-- Claim C3 (amended): the clear-text flag does not control decryption of the
record's sensitive fields: every load, single or batch, passes the
`WithDecryption` option to the row fetch unconditionally, for either value of
the flag; the flag only controls redaction of the result and is forwarded to
model resolution. -/
theorem load_always_requests_decryption (envL : LoadEnv) (envA : LoadAllEnv) (c : Bool) :
    (load envL c).1.head? = some (StoreEvent.fetch true) ∧
    (loadAll envA c).1.head? = some (StoreEvent.fetch true) := by
  constructor
  · unfold load
    cases envL.getRow <;> rfl
  · unfold loadAll
    cases envA.getRows <;> rfl

/-- Witness for C3 (amended) at concrete environments. -/
theorem load_always_requests_decryption_witness :
    (load envLoadOk true).1.head? = some (StoreEvent.fetch true) ∧
    (loadAll envBatchOneBad true).1.head? = some (StoreEvent.fetch true) :=
  load_always_requests_decryption envLoadOk envBatchOneBad true

/-- Claim C9: `AddOnWorkflow` is idempotent on the
(workflow id, integration id) relation: adding a pair that is not yet present
and then adding it again leaves exactly one association row, and the duplicate
add is a successful no-op. -/
theorem addOnWorkflow_idempotent (table : List (Int × Int)) (w i : Int)
    (h : (w, i) ∉ table) :
    ∃ t1, AddOnWorkflow table w i = .ok t1 ∧
      AddOnWorkflow t1 w i = .ok t1 ∧
      t1.count (w, i) = 1 := by
  refine ⟨table ++ [(w, i)], ?_, ?_, ?_⟩
  · simp [AddOnWorkflow, execInsertWorkflowIntegration, h]
  · simp [AddOnWorkflow, execInsertWorkflowIntegration]
  · rw [List.count_append]
    rw [List.count_eq_zero_of_not_mem h]
    simp

/-- Witness for C9 at a concrete table and pair. -/
theorem addOnWorkflow_idempotent_witness :
    ∃ t1, AddOnWorkflow [((1 : Int), (2 : Int))] 3 4 = .ok t1 ∧
      AddOnWorkflow t1 3 4 = .ok t1 ∧
      t1.count (3, 4) = 1 :=
  addOnWorkflow_idempotent [(1, 2)] 3 4 (by decide)

/-! ### Claims about the key provisioning handler -/

/-- Claim C10: `keyInstall` treats an empty destination as no destination —
it calls the default `InstallKey` without the absolute-path check — and the
handler treats an explicit empty-string `file` field exactly like an omitted
one, so an explicit empty path is installed to the default location rather
than rejected as unsupported. -/
theorem keyInstall_empty_filename_default (rt : RuntimeEnv) (key : Variable)
    (env : HandlerEnv) (keyName : String) :
    keyInstall rt "" key = ([KeyEvent.installKey key], rt.installKey key) ∧
    keyInstallHandler env keyName (.ok [("file", "")]) =
      keyInstallHandler env keyName (.ok []) :=
  ⟨rfl, rfl⟩

/-- Witness for C10 at a concrete worker and key. -/
theorem keyInstall_empty_filename_default_witness :
    keyInstall rtEnv "" sampleKey
      = ([KeyEvent.installKey sampleKey], rtEnv.installKey sampleKey) ∧
    keyInstallHandler envWithKey "mykey" (.ok [("file", "")]) =
      keyInstallHandler envWithKey "mykey" (.ok []) :=
  keyInstall_empty_filename_default rtEnv sampleKey envWithKey "mykey"

/-- Claim C6: with no secret set loaded the handler answers 400 with a
message that no keys are available for the job; with a secret set that has no
entry named `cds.key.<keyName>.priv` it answers 404 naming the missing key;
the two statuses differ, so the failures are distinguishable. -/
theorem keyInstallHandler_distinguishes_no_secrets_from_missing_key
    (env : HandlerEnv) (keyName : String) (mapBody : List (String × String)) :
    (env.secrets = none →
      keyInstallHandler env keyName (.ok mapBody) =
        ([], ⟨StatusBadRequest, .errorMessage "Cannot find any keys for your job"⟩)) ∧
    (∀ s, env.secrets = some s →
      (∀ k ∈ s, ¬ k.name = "cds.key." ++ keyName ++ ".priv") →
      keyInstallHandler env keyName (.ok mapBody) =
        ([], ⟨StatusNotFound, .errorMessage ("Key " ++ keyName ++ " not found")⟩)) ∧
    ¬ StatusBadRequest = StatusNotFound := by
  refine ⟨?_, ?_, by decide⟩
  · intro h
    simp [keyInstallHandler, h]
  · intro s hs hk
    have hnone : findKey s keyName = none := by
      rw [findKey, List.find?_eq_none]
      intro k hks
      simpa using hk k hks
    simp [keyInstallHandler, hs, hnone]

/-- Witness for C6: a concrete job with no secrets gets 400; a concrete job
holding only the `mykey` secret gets 404 for the key name `other`. -/
theorem keyInstallHandler_distinguishes_witness :
    (keyInstallHandler envNoSecrets "mykey" (.ok [])).2.status = 400 ∧
    (keyInstallHandler envWithKey "other" (.ok [])).2.status = 404 := by
  constructor
  · rw [(keyInstallHandler_distinguishes_no_secrets_from_missing_key
      envNoSecrets "mykey" []).1 rfl]
    rfl
  · rw [(keyInstallHandler_distinguishes_no_secrets_from_missing_key
      envWithKey "other" []).2.1 [sampleKey] rfl (by decide)]
    rfl

/-- Claim C7 counterexample: a concrete request whose key exists and whose
destination is the relative path `relative/path` is rejected, but the response
status is the generic unknown-error status, which is not 400. -/
theorem keyInstall_relative_path_counterexample :
    (keyInstallHandler envWithKey "mykey" (.ok [("file", "relative/path")])).2
      = ⟨ErrUnknownErrorStatus, .errorMessage "unsupported relative path"⟩ ∧
    ¬ ErrUnknownErrorStatus = StatusBadRequest :=
  ⟨rfl, by decide⟩

/-- Claim C7 (amended): a relative (non-absolute, non-empty) destination path
is rejected as an unsupported path, but because `keyInstall` reports it as a
plain error without a structured status, the handler maps it to the generic
unknown-error status (500) — not to 400, the status of malformed body and
no-secrets-loaded. -/
theorem keyInstallHandler_relative_path_generic_status (env : HandlerEnv)
    (keyName : String) (mapBody : List (String × String))
    (s : List Variable) (key : Variable)
    (hs : env.secrets = some s) (hk : findKey s keyName = some key)
    (hne : ¬ mapGet mapBody "file" = "")
    (hrel : PathIsAbs (mapGet mapBody "file") = false) :
    keyInstallHandler env keyName (.ok mapBody) =
      ([], ⟨ErrUnknownErrorStatus, .errorMessage "unsupported relative path"⟩) := by
  have hne' : (mapGet mapBody "file" == "") = false := by
    simpa using hne
  simp [keyInstallHandler, hs, hk, keyInstall, hne', hrel]

/-- Witness for C7 (amended) at the concrete relative path `relative/path`. -/
theorem keyInstallHandler_relative_path_generic_status_witness :
    keyInstallHandler envWithKey "mykey" (.ok [("file", "relative/path")]) =
      ([], ⟨ErrUnknownErrorStatus, .errorMessage "unsupported relative path"⟩) :=
  keyInstallHandler_relative_path_generic_status envWithKey "mykey"
    [("file", "relative/path")] [sampleKey] sampleKey rfl rfl (by decide) rfl

/-- Claim C8: a relative destination is rejected before any call to the
runtime's install capability — the capability-call trace is empty — while an
absolute destination reaches `InstallKeyTo` with exactly the caller-supplied
path, unmodified. -/
theorem keyInstall_path_discipline (rt : RuntimeEnv) (filename : String) (key : Variable) :
    (¬ filename = "" → PathIsAbs filename = false →
      keyInstall rt filename key = ([], .error (.plain "unsupported relative path"))) ∧
    (PathIsAbs filename = true →
      keyInstall rt filename key =
        ([KeyEvent.installKeyTo key filename], rt.installKeyTo key filename)) := by
  constructor
  · intro h1 h2
    have h1' : (filename == "") = false := by simpa using h1
    simp [keyInstall, h1', h2]
  · intro h
    have hne : ¬ filename = "" := by
      intro h0
      rw [h0] at h
      exact absurd h (by decide)
    have hne' : (filename == "") = false := by simpa using hne
    simp [keyInstall, hne', h]

/-- Witness for C8 at the concrete paths `relative/path` and `/abs/path`. -/
theorem keyInstall_path_discipline_witness :
    keyInstall rtEnv "relative/path" sampleKey
      = ([], .error (.plain "unsupported relative path")) ∧
    keyInstall rtEnv "/abs/path" sampleKey
      = ([KeyEvent.installKeyTo sampleKey "/abs/path"],
         rtEnv.installKeyTo sampleKey "/abs/path") :=
  ⟨(keyInstall_path_discipline rtEnv "relative/path" sampleKey).1 (by decide) rfl,
   (keyInstall_path_discipline rtEnv "/abs/path" sampleKey).2 rfl⟩

/-! ### Batch-load lemmas -/

/-- When every row's signature check reports a verdict and the model of every
valid row resolves, the row loop of `loadAll` raises no error: each row maps
to its processed entry, and an invalid row leaves the zero-value record in
its slot. -/
theorem loadAllRows_ok_of_sound (env : LoadAllEnv) (c : Bool)
    (v : ProjectIntegration → Bool) (m : ProjectIntegration → IntegrationModel) :
    ∀ rows : List ProjectIntegration,
      (∀ p ∈ rows, env.checkSignature p p.signature = .ok (v p)) →
      (∀ p ∈ rows, v p = true → env.loadModel p.integrationModelID c = .ok (m p)) →
      (loadAllRows env c rows).2 =
        .ok (rows.map fun p =>
          if v p then loadedEntry c (m p) p else ProjectIntegration.zero) := by
  intro rows
  induction rows with
  | nil => intro _ _; rfl
  | cons p rest ih =>
    intro hsig hmod
    have hp : env.checkSignature p p.signature = .ok (v p) :=
      hsig p (List.mem_cons_self p rest)
    have ihr := ih (fun q hq => hsig q (List.mem_cons_of_mem p hq))
      (fun q hq => hmod q (List.mem_cons_of_mem p hq))
    cases hv : v p with
    | false => simp [loadAllRows, hp, hv, ihr, Except.map]
    | true =>
      have hm := hmod p (List.mem_cons_self p rest) hv
      simp [loadAllRows, hp, hv, hm, ihr, Except.map]

/-- A collaborator error while processing the remaining rows is the error of
the whole loop, however many sound rows precede it. -/
theorem loadAllRows_error_of_suffix (env : LoadAllEnv) (c : Bool)
    (v : ProjectIntegration → Bool) (m : ProjectIntegration → IntegrationModel)
    (e : StoreError) :
    ∀ pre rest,
      (∀ q ∈ pre, env.checkSignature q q.signature = .ok (v q)) →
      (∀ q ∈ pre, v q = true → env.loadModel q.integrationModelID c = .ok (m q)) →
      (loadAllRows env c rest).2 = .error e →
      (loadAllRows env c (pre ++ rest)).2 = .error e := by
  intro pre
  induction pre with
  | nil => intro rest _ _ h; simpa using h
  | cons q pre ih =>
    intro rest hsig hmod hrest
    have hq : env.checkSignature q q.signature = .ok (v q) :=
      hsig q (List.mem_cons_self q pre)
    have ihr := ih rest (fun r hr => hsig r (List.mem_cons_of_mem q hr))
      (fun r hr => hmod r (List.mem_cons_of_mem q hr)) hrest
    cases hv : v q with
    | false => simp [loadAllRows, hq, hv, ihr, Except.map]
    | true =>
      have hm := hmod q (List.mem_cons_self q pre) hv
      simp [loadAllRows, hq, hv, hm, ihr, Except.map]

/-! ### Redaction -/

/-- No sensitive field (per the record's attached model) is in clear form:
every such field holds the redaction placeholder. -/
def redacted (p : ProjectIntegration) : Prop :=
  ∀ kv ∈ p.config, kv.1 ∈ p.model.sensitiveFields → kv.2 = passwordPlaceholder

/-- Blurring redacts: after `blur`, every field the attached model marks
sensitive holds the placeholder. -/
theorem blur_redacts (p : ProjectIntegration) : redacted p.blur := by
  intro kv hkv hsens
  simp only [ProjectIntegration.blur, List.mem_map] at hkv
  obtain ⟨ab, hab, hif⟩ := hkv
  by_cases h : ab.1 ∈ p.model.sensitiveFields
  · rw [if_pos h] at hif
    rw [← hif]
  · rw [if_neg h] at hif
    subst hif
    exact absurd hsens h

/-- The zero-value record is vacuously redacted. -/
theorem zero_redacted : redacted ProjectIntegration.zero := by
  intro kv hkv
  simp [ProjectIntegration.zero] at hkv

/-- A clear-text-off pipeline entry is redacted. -/
theorem loadedEntry_false_redacted (imodel : IntegrationModel) (p : ProjectIntegration) :
    redacted (loadedEntry false imodel p) :=
  blur_redacts { p with model := imodel }

/-- Every record a successful `loadAfterFetch` returns is a pipeline entry:
some fetched row with its resolved model attached, blurred when clear-text
access was off. -/
theorem loadAfterFetch_ok (env : LoadEnv) (c : Bool) (row : Option ProjectIntegration)
    (out : ProjectIntegration) (h : (loadAfterFetch env c row).2 = .ok out) :
    ∃ pp imodel, out = loadedEntry c imodel pp := by
  cases row with
  | none => simp [loadAfterFetch] at h
  | some pp =>
    simp only [loadAfterFetch] at h
    split at h
    · simp at h
    · split at h
      · simp at h
      · split at h
        · simp at h
        · simp at h
          exact ⟨pp, _, h.symm⟩

/-- Every record a successful clear-text-off row loop returns is redacted. -/
theorem loadAllRows_redacts (env : LoadAllEnv) :
    ∀ rows outs, (loadAllRows env false rows).2 = .ok outs →
      ∀ q ∈ outs, redacted q := by
  intro rows
  induction rows with
  | nil =>
    intro outs h q hq
    simp only [loadAllRows] at h
    cases h
    simp at hq
  | cons p rest ih =>
    intro outs h q hq
    simp only [loadAllRows] at h
    split at h
    · simp at h
    · split at h
      · simp only [] at h
        cases htail : (loadAllRows env false rest).2 with
        | error e => rw [htail] at h; simp [Except.map] at h
        | ok tail =>
          rw [htail] at h
          simp [Except.map] at h
          subst h
          rcases List.mem_cons.mp hq with hq1 | hq1
          · rw [hq1]; exact zero_redacted
          · exact ih tail htail q hq1
      · split at h
        · simp at h
        · simp only [] at h
          cases htail : (loadAllRows env false rest).2 with
          | error e => rw [htail] at h; simp [Except.map] at h
          | ok tail =>
            rw [htail] at h
            simp [Except.map] at h
            subst h
            rcases List.mem_cons.mp hq with hq1 | hq1
            · rw [hq1]; exact loadedEntry_false_redacted _ _
            · exact ih tail htail q hq1

/-- Claim C1 counterexample: a batch over two fetched rows of which exactly
one fails verification raises no error but returns two records, not one —
the corrupted row is not dropped from the returned collection; its slot holds
the zero-value record. -/
theorem loadAll_counterexample_corrupted_not_dropped :
    (loadAll envBatchOneBad false).2 = .ok [ProjectIntegration.zero, rowGoodLoaded] ∧
    ¬ ([ProjectIntegration.zero, rowGoodLoaded] : List ProjectIntegration).length = 2 - 1 :=
  ⟨rfl, by decide⟩

/-- Claim C1 (amended): for a multi-record load over N fetched rows where the
signature checks report verdicts and every valid row's model resolves, the
call raises no error and returns exactly N records — the same length as the
fetch — with each row that failed verification leaving the zero-value record
in its slot (its data is withheld but the row is not dropped) and each valid
row processed normally. -/
theorem loadAll_corruption_left_in_place (env : LoadAllEnv) (c : Bool)
    (rows : List ProjectIntegration) (v : ProjectIntegration → Bool)
    (m : ProjectIntegration → IntegrationModel)
    (hrows : env.getRows = .ok rows)
    (hsig : ∀ p ∈ rows, env.checkSignature p p.signature = .ok (v p))
    (hmod : ∀ p ∈ rows, v p = true → env.loadModel p.integrationModelID c = .ok (m p)) :
    (loadAll env c).2 =
      .ok (rows.map fun p =>
        if v p then loadedEntry c (m p) p else ProjectIntegration.zero) ∧
    ∀ out, (loadAll env c).2 = .ok out → out.length = rows.length := by
  have h := loadAllRows_ok_of_sound env c v m rows hsig hmod
  have h1 : (loadAll env c).2 =
      .ok (rows.map fun p =>
        if v p then loadedEntry c (m p) p else ProjectIntegration.zero) := by
    simp [loadAll, hrows, h]
  refine ⟨h1, ?_⟩
  intro out hout
  rw [h1] at hout
  injection hout with h2
  rw [← h2, List.length_map]

/-- Witness for C1 (amended) at the concrete two-row batch with one tampered
row. -/
theorem loadAll_corruption_left_in_place_witness :
    (loadAll envBatchOneBad false).2 =
      .ok ([rowBad, rowGood].map fun p =>
        if p.signature == "good" then loadedEntry false modelTen p
        else ProjectIntegration.zero) :=
  (loadAll_corruption_left_in_place envBatchOneBad false [rowBad, rowGood]
    (fun p => p.signature == "good") (fun _ => modelTen) rfl
    (fun _ _ => rfl)
    (by intro p hp hv; fin_cases hp <;> rfl)).1

/-- Claim C4: a record returned by a clear-text-off load — single or batch —
is redacted: every field its attached model marks sensitive holds the
placeholder, never a clear value. -/
theorem load_redacts_sensitive_fields (envL : LoadEnv) (envA : LoadAllEnv) :
    (∀ out, (load envL false).2 = .ok out → redacted out) ∧
    (∀ outs, (loadAll envA false).2 = .ok outs → ∀ q ∈ outs, redacted q) := by
  constructor
  · intro out hout
    unfold load at hout
    cases hrow : envL.getRow with
    | error e => rw [hrow] at hout; simp at hout
    | ok row =>
      rw [hrow] at hout
      simp only [] at hout
      obtain ⟨pp, imodel, hpe⟩ := loadAfterFetch_ok envL false row out hout
      rw [hpe]
      exact loadedEntry_false_redacted imodel pp
  · intro outs houts
    unfold loadAll at houts
    cases hrows : envA.getRows with
    | error e => rw [hrows] at houts; simp at houts
    | ok pp =>
      rw [hrows] at houts
      simp only [] at houts
      exact loadAllRows_redacts envA pp outs houts

/-- Witness for C4: the concrete single load yields the blurred record, and
both members of the concrete batch result are redacted. -/
theorem load_redacts_sensitive_fields_witness :
    redacted rowGoodLoaded ∧ redacted ProjectIntegration.zero :=
  ⟨(load_redacts_sensitive_fields envLoadOk envBatchOneBad).1 rowGoodLoaded rfl,
   (load_redacts_sensitive_fields envLoadOk envBatchOneBad).2
     [ProjectIntegration.zero, rowGoodLoaded] rfl ProjectIntegration.zero
     (List.mem_cons_self _ _)⟩

/-- Claim C5: for single and batch loads alike, a failure to resolve the
model referenced by a record that passed verification is propagated
immediately as the error of the enclosing call — for a batch the whole batch
fails, however many sound rows precede the failing one. -/
theorem loadModel_failure_fatal (envL : LoadEnv) (envA : LoadAllEnv) (c : Bool)
    (e : StoreError) :
    (∀ p, envL.getRow = .ok (some p) →
      envL.checkSignature p p.signature = .ok true →
      envL.loadModel p.integrationModelID c = .error e →
      (load envL c).2 = .error e) ∧
    (∀ pre p post (v : ProjectIntegration → Bool)
        (m : ProjectIntegration → IntegrationModel),
      envA.getRows = .ok (pre ++ p :: post) →
      (∀ q ∈ pre, envA.checkSignature q q.signature = .ok (v q)) →
      (∀ q ∈ pre, v q = true → envA.loadModel q.integrationModelID c = .ok (m q)) →
      envA.checkSignature p p.signature = .ok true →
      envA.loadModel p.integrationModelID c = .error e →
      (loadAll envA c).2 = .error e) := by
  constructor
  · intro p hrow hsig hm
    simp [load, hrow, loadAfterFetch, hsig, hm]
  · intro pre p post v m hrows hsig hmod hps hpm
    have hhead : (loadAllRows envA c (p :: post)).2 = .error e := by
      simp [loadAllRows, hps, hpm]
    have hall := loadAllRows_error_of_suffix envA c v m e pre (p :: post) hsig hmod hhead
    simp [loadAll, hrows, hall]

/-- Witness for C5: a concrete single load and a concrete one-row batch whose
model resolution fails both surface that failure. -/
theorem loadModel_failure_fatal_witness :
    (load envLoadModelFail true).2 = .error (.modelLoadFailure "model missing") ∧
    (loadAll envBatchModelFail true).2 = .error (.modelLoadFailure "model missing") :=
  ⟨(loadModel_failure_fatal envLoadModelFail envBatchModelFail true
      (.modelLoadFailure "model missing")).1 rowGood rfl rfl rfl,
   (loadModel_failure_fatal envLoadModelFail envBatchModelFail true
      (.modelLoadFailure "model missing")).2 [] rowGood []
     (fun _ => true) (fun _ => IntegrationModel.zero) rfl
     (fun q hq => absurd hq (List.not_mem_nil q))
     (fun q hq => absurd hq (List.not_mem_nil q)) rfl rfl⟩

end Cds
